import Mathlib

/-!
Verification of the job-packing orchestrator (fireworks/features/jobpack.py).

The development shallowly embeds the orchestrator core:

* `split_node_lists` — the NodeAllocator (pure partitioning function);
* `ping_launch_jp_scan` — one pass of the for-loop in the body of
  `ping_launch_jp`, the LivenessMonitor scan over a registry snapshot;
* `launch_job_packing_processes` — the control flow of the Orchestrator,
  as the list of completed steps under fault injection.

Node identifiers are modelled as naturals (`NodeId`): the source only uses
equality and ordering of the identifier strings, and the Python string
order is a decidable linear order just like the one on naturals.
The source is Python 2: the slash on two ints is floor division, mirrored
here by `Nat` division, and the divisibility checks of the source compare
the floored quotient times the divisor against the dividend.
-/

/-- Node identifier. The source uses plain strings; only their equality
and linear order matter to the allocator. -/
abbrev NodeId := Nat

/-- Embedding of `sorted(list(set(total_node_list)))` from the source:
the distinct node identifiers in ascending order. -/
def dedupSort (l : List NodeId) : List NodeId :=
  List.insertionSort (fun a b => a ≤ b) l.dedup

/-- Python truthiness of the optional node-list argument
(`if total_node_list:`): `None` and the empty list are falsy, a non-empty
list is truthy. -/
def listTruthy (l : Option (List NodeId)) : Bool :=
  !(l.getD []).isEmpty

/-- Python list repetition `l * k`: `k` copies of `l` concatenated.
Used by the serial branch of the allocator. -/
def pyListMul (l : List NodeId) (k : Nat) : List NodeId :=
  (List.replicate k l).flatten

/-- The slice comprehension of the parallel branch of the source,
`[orig[i : i + s] for i in range(0, stop, s)]`: for a positive step `s`
the Python range has `ceil(stop / s)` elements `0, s, 2*s, ...`, and the
slice at `i` is `take s (drop i)`. -/
def pySlices (l : List NodeId) (s : Nat) (stop : Nat) : List (List NodeId) :=
  (List.range ((stop + s - 1) / s)).map (fun k => ((l.drop (k * s)).take s))

/-- Exceptions that `split_node_lists` can raise: the `ValueError` of the
two divisibility checks (carrying the two counts that appear in the
message), and the `ZeroDivisionError` of a zero divisor. -/
inductive AllocError
  | notDivisible (a b : Nat)
  | divisionByZero
deriving DecidableEq, Repr

/-- Embedding of `split_node_lists(num_rockets, total_node_list, ppn,
serial_mode)`. Returns the pair `(node_lists, sub_nproc_list)`; a raised
exception is an `AllocError` value. The branch structure follows the
source line by line: serial/parallel split, Python truthiness of the node
list, dedup-sort, floor division, divisibility check. -/
def split_node_lists (num_rockets : Nat) (total_node_list : Option (List NodeId))
    (ppn : Nat) (serial_mode : Bool) :
    Except AllocError (List (Option (List NodeId)) × List Nat) :=
  if serial_mode then
    if listTruthy total_node_list then
      let orig_node_list := dedupSort (total_node_list.getD [])
      let nnodes := orig_node_list.length
      let job_per_node := num_rockets / nnodes
      if job_per_node * nnodes ≠ num_rockets then
        .error (.notDivisible num_rockets nnodes)
      else
        .ok ((pyListMul orig_node_list job_per_node).map (fun node => some [node]),
          List.replicate num_rockets 1)
    else
      .ok (List.replicate num_rockets none, List.replicate num_rockets 1)
  else
    if listTruthy total_node_list then
      let orig_node_list := dedupSort (total_node_list.getD [])
      let nnodes := orig_node_list.length
      if num_rockets = 0 then
        .error .divisionByZero
      else
        let sub_nnodes := nnodes / num_rockets
        if sub_nnodes * num_rockets ≠ nnodes then
          .error (.notDivisible nnodes num_rockets)
        else
          .ok ((pySlices orig_node_list sub_nnodes nnodes).map some,
            List.replicate num_rockets (sub_nnodes * ppn))
    else
      .ok (List.replicate num_rockets none, List.replicate num_rockets ppn)

/-- Outcome of one environment call made by the monitor: the call returns
normally, raises `OSError`, or raises some other exception. -/
inductive PingOutcome
  | ok
  | osError
  | otherError
deriving DecidableEq, Repr

/-- Environment of one monitor scan: which OS process ids are alive
(`os.kill(pid, 0)` succeeds) and how `lp.ping_launch` behaves on each
launch id. -/
structure MonitorEnv where
  pidAlive : Nat → Bool
  pingResult : Nat → PingOutcome

/-- Python truthiness of a registry value (`if lid:`): `None` and the
integer zero are falsy. -/
def lidTruthy (lid : Option Nat) : Bool :=
  match lid with
  | none => false
  | some n => n != 0

/-- One pass of the for-loop in the body of `ping_launch_jp` over a
snapshot of the `Running_IDs` registry. Returns the launch ids for which
`lp.ping_launch` was invoked, in order, paired with `true` when the scan
ran to completion and `false` when an uncaught exception aborted it.
The per-entry handler of the source catches only `OSError`: a dead
process (probe raises `OSError`) and an `OSError` from the ping are
swallowed, any other exception propagates out of the loop. -/
def ping_launch_jp_scan (env : MonitorEnv) :
    List (Nat × Option Nat) → List Nat × Bool
  | [] => ([], true)
  | (pid, lid) :: rest =>
    if lidTruthy lid then
      if env.pidAlive pid then
        if env.pingResult (lid.getD 0) = PingOutcome.otherError then
          ([lid.getD 0], false)
        else
          let r := ping_launch_jp_scan env rest
          (lid.getD 0 :: r.1, r.2)
      else
        ping_launch_jp_scan env rest
    else
      ping_launch_jp_scan env rest

/-- The launch id a scan entry contributes when the registry value is
truthy and the owning process is alive; `none` otherwise. -/
def pingedOf (env : MonitorEnv) (e : Nat × Option Nat) : Option Nat :=
  if lidTruthy e.2 && env.pidAlive e.1 then some (e.2.getD 0) else none

/-- Observable steps of `launch_job_packing_processes`, in source order.
`waitMonitor` (joining the ping thread) is listed so that its absence
from every trace can be stated. -/
inductive OrchEvent
  | allocate
  | startService
  | spawnWorkers
  | startMonitor
  | joinWorkers
  | signalStop
  | waitMonitor
  | shutdownService
deriving DecidableEq, Repr

/-- Fault injection for the collaborator calls of the orchestrator that
can raise after allocation: `run_manager_server`,
`launch_rapidfire_processes` and the start of the ping thread. -/
structure FaultModel where
  serviceStartRaises : Bool
  launchRaises : Bool
  monitorStartRaises : Bool
deriving DecidableEq, Repr

/-- Embedding of the control flow of `launch_job_packing_processes` as
the list of completed steps, paired with `true` when the function
returned normally. The source has no try/finally: an exception raised at
any step propagates and none of the remaining statements run. There is
no `waitMonitor` event in any branch because the source never joins
`ping_thread`. -/
def launch_job_packing_processes (num_rockets : Nat)
    (total_node_list : Option (List NodeId)) (ppn : Nat) (serial_mode : Bool)
    (fm : FaultModel) : List OrchEvent × Bool :=
  match split_node_lists num_rockets total_node_list ppn serial_mode with
  | .error _ => ([], false)
  | .ok _ =>
    if fm.serviceStartRaises then
      ([.allocate], false)
    else if fm.launchRaises then
      ([.allocate, .startService], false)
    else if fm.monitorStartRaises then
      ([.allocate, .startService, .spawnWorkers], false)
    else
      ([.allocate, .startService, .spawnWorkers, .startMonitor,
        .joinWorkers, .signalStop, .shutdownService], true)

/-- Scan environment where every process is alive and the ping of launch
id 5 raises a non-`OSError` exception. -/
def abortingPingEnv : MonitorEnv :=
  ⟨fun _ => true, fun l => if l = 5 then PingOutcome.otherError else PingOutcome.ok⟩

/-- Scan environment where every process is alive and every ping raises
`OSError`. -/
def osErrorPingEnv : MonitorEnv :=
  ⟨fun _ => true, fun _ => PingOutcome.osError⟩

/-- Scan environment where only process id 2 is alive and pings return
normally. -/
def deadPidEnv : MonitorEnv :=
  ⟨fun pid => pid == 2, fun _ => PingOutcome.ok⟩

/-! ## Basic properties of the deduplicating sort -/

/-- The deduplicated sorted node list has no duplicates. -/
theorem dedupSort_nodup (l : List NodeId) : (dedupSort l).Nodup :=
  (List.Perm.nodup_iff (List.perm_insertionSort _ l.dedup)).mpr (List.nodup_dedup l)

/-- The deduplicated sorted node list is sorted. -/
theorem dedupSort_sorted (l : List NodeId) :
    List.Sorted (fun a b : NodeId => a ≤ b) (dedupSort l) :=
  List.sorted_insertionSort _ l.dedup

/-- Sorting the deduplicated list is idempotent. -/
theorem dedupSort_idem (l : List NodeId) : dedupSort (dedupSort l) = dedupSort l := by
  conv_lhs => rw [dedupSort]
  rw [List.Nodup.dedup (dedupSort_nodup l)]
  exact List.Sorted.insertionSort_eq (dedupSort_sorted l)

/-- The deduplicated sorted list is empty exactly when the input is. -/
theorem dedupSort_eq_nil_iff (l : List NodeId) : dedupSort l = [] ↔ l = [] := by
  constructor
  · intro h
    have hp := List.perm_insertionSort (fun a b : NodeId => a ≤ b) l.dedup
    rw [show List.insertionSort (fun a b : NodeId => a ≤ b) l.dedup = dedupSort l from rfl,
      h] at hp
    exact (List.dedup_eq_nil l).mp hp.symm.eq_nil
  · intro h
    subst h
    rfl

/-- A non-empty node list passed as an argument is truthy. -/
theorem listTruthy_some (l : List NodeId) (h : l ≠ []) : listTruthy (some l) = true := by
  simp [listTruthy, List.isEmpty_iff, h]

/-- The divisibility check of the source (floored quotient times divisor
equals dividend) holds exactly when the remainder is zero. -/
theorem div_mul_check_iff (a b : Nat) : a / b * b = a ↔ a % b = 0 := by
  constructor
  · intro h
    exact Nat.mod_eq_zero_of_dvd ⟨a / b, h.symm.trans (Nat.mul_comm (a / b) b)⟩
  · intro h
    exact Nat.div_mul_cancel (Nat.dvd_of_mod_eq_zero h)

/-! ## Claims C9 and C10: allocator without a node list -/

/-- C9: when the node list is absent the allocator returns exactly
num_rockets shares, each with no node list, with processor count ppn in
parallel mode and 1 in serial mode, and never raises. -/
theorem C9_partition_without_node_list (num_rockets ppn : Nat) (serial_mode : Bool) :
    split_node_lists num_rockets none ppn serial_mode =
      Except.ok (List.replicate num_rockets none,
        List.replicate num_rockets (if serial_mode then 1 else ppn)) ∧
    (List.replicate num_rockets (none : Option (List NodeId))).length = num_rockets := by
  cases serial_mode <;> simp [split_node_lists, listTruthy]

/-- C10: an empty node list is falsy in Python, so it takes exactly the
same branch as an absent node list: no divisibility check, no error, and
num_rockets shares with no node list. -/
theorem C10_empty_list_like_absent (num_rockets ppn : Nat) (serial_mode : Bool) :
    split_node_lists num_rockets (some []) ppn serial_mode =
      split_node_lists num_rockets none ppn serial_mode ∧
    split_node_lists num_rockets (some []) ppn serial_mode =
      Except.ok (List.replicate num_rockets none,
        List.replicate num_rockets (if serial_mode then 1 else ppn)) := by
  cases serial_mode <;> simp [split_node_lists, listTruthy]

/-! ## Claim C8: determinism of the allocator -/

/-- C8: the allocator is a pure function, so identical inputs give
identical outputs, and the only use it makes of the node list is through
its deduplicated sorted form: replacing the input by that form changes
nothing. -/
theorem C8_partition_deterministic (num_rockets ppn : Nat)
    (tnl : Option (List NodeId)) (serial_mode : Bool) :
    split_node_lists num_rockets tnl ppn serial_mode =
      split_node_lists num_rockets tnl ppn serial_mode ∧
    ∀ l : List NodeId,
      split_node_lists num_rockets (some l) ppn serial_mode =
        split_node_lists num_rockets (some (dedupSort l)) ppn serial_mode := by
  refine ⟨rfl, fun l => ?_⟩
  have hidem := dedupSort_idem l
  have htr : listTruthy (some (dedupSort l)) = listTruthy (some l) := by
    by_cases h : l = []
    · subst h
      rfl
    · have h1 : dedupSort l ≠ [] := fun hh => h ((dedupSort_eq_nil_iff l).mp hh)
      rw [listTruthy_some l h, listTruthy_some (dedupSort l) h1]
  simp only [split_node_lists, Option.getD_some, hidem, htr]

/-! ## Branch lemmas for the allocator -/

/-- Parallel branch, check passes: the allocator returns the slices of
the deduplicated sorted list and the uniform processor counts. -/
theorem split_parallel_ok (num_rockets ppn : Nat) (l : List NodeId)
    (hnum : 1 ≤ num_rockets) (hl : l ≠ [])
    (hmul : (dedupSort l).length / num_rockets * num_rockets = (dedupSort l).length) :
    split_node_lists num_rockets (some l) ppn false =
      Except.ok ((pySlices (dedupSort l) ((dedupSort l).length / num_rockets)
          (dedupSort l).length).map some,
        List.replicate num_rockets ((dedupSort l).length / num_rockets * ppn)) := by
  simp only [split_node_lists, Option.getD_some]
  rw [if_neg (by simp : ¬ false = true), if_pos (listTruthy_some l hl),
    if_neg (by omega : ¬ num_rockets = 0), if_neg (not_ne_iff.mpr hmul)]

/-- Parallel branch, check fails: the allocator raises the divisibility
error carrying the node count and the sub-job count. -/
theorem split_parallel_err (num_rockets ppn : Nat) (l : List NodeId)
    (hnum : 1 ≤ num_rockets) (hl : l ≠ [])
    (hne : (dedupSort l).length / num_rockets * num_rockets ≠ (dedupSort l).length) :
    split_node_lists num_rockets (some l) ppn false =
      Except.error (AllocError.notDivisible (dedupSort l).length num_rockets) := by
  simp only [split_node_lists, Option.getD_some]
  rw [if_neg (by simp : ¬ false = true), if_pos (listTruthy_some l hl),
    if_neg (by omega : ¬ num_rockets = 0), if_pos hne]

/-- Serial branch, check passes: the allocator returns the cyclically
repeated singleton shares and processor count one everywhere. -/
theorem split_serial_ok (num_rockets ppn : Nat) (l : List NodeId) (hl : l ≠ [])
    (hmul : num_rockets / (dedupSort l).length * (dedupSort l).length = num_rockets) :
    split_node_lists num_rockets (some l) ppn true =
      Except.ok ((pyListMul (dedupSort l) (num_rockets / (dedupSort l).length)).map
          (fun node => some [node]),
        List.replicate num_rockets 1) := by
  simp only [split_node_lists, Option.getD_some]
  rw [if_pos trivial, if_pos (listTruthy_some l hl), if_neg (not_ne_iff.mpr hmul)]

/-- Serial branch, check fails: the allocator raises the divisibility
error carrying the sub-job count and the node count. -/
theorem split_serial_err (num_rockets ppn : Nat) (l : List NodeId) (hl : l ≠ [])
    (hne : num_rockets / (dedupSort l).length * (dedupSort l).length ≠ num_rockets) :
    split_node_lists num_rockets (some l) ppn true =
      Except.error (AllocError.notDivisible num_rockets (dedupSort l).length) := by
  simp only [split_node_lists, Option.getD_some]
  rw [if_pos trivial, if_pos (listTruthy_some l hl), if_pos hne]

/-! ## Chunking lemmas for the parallel branch -/

/-- The Python range bound of the slice comprehension counts exactly the
number of full slices when the length divides evenly. -/
theorem ceil_div_exact (s num : Nat) (hs : 0 < s) : (num * s + s - 1) / s = num := by
  have h1 : num * s + s - 1 = (s - 1) + num * s := by omega
  rw [h1, Nat.add_mul_div_right _ _ hs, Nat.div_eq_of_lt (by omega), Nat.zero_add]

/-- Concatenating the contiguous slices of width `s` restores the list
when the length is a multiple of `s`. -/
theorem range_chunks_flatten (s : Nat) :
    ∀ (num : Nat) (l : List NodeId), l.length = num * s →
      ((List.range num).map (fun k => ((l.drop (k * s)).take s))).flatten = l := by
  intro num
  induction num with
  | zero =>
    intro l hl
    simp only [List.range_zero, List.map_nil, List.flatten_nil]
    exact (List.length_eq_zero.mp (by simpa using hl)).symm
  | succ n ih =>
    intro l hl
    rw [List.range_succ_eq_map, List.map_cons, List.map_map, List.flatten_cons]
    have hmap : (List.map ((fun k => ((l.drop (k * s)).take s)) ∘ Nat.succ) (List.range n)) =
        List.map (fun k => ((((l.drop s)).drop (k * s)).take s)) (List.range n) := by
      apply List.map_congr_left
      intro k _
      simp only [Function.comp_apply, List.drop_drop]
      congr 2
      rw [Nat.succ_mul, Nat.add_comm]
    rw [hmap, ih (l.drop s) (by rw [List.length_drop, hl, Nat.succ_mul]; omega)]
    simp only [Nat.zero_mul, List.drop_zero]
    exact List.take_append_drop s l

/-- Every slice of the comprehension has width exactly `s` when the
length is a multiple of `s`. -/
theorem range_chunks_mem_length (s num : Nat) (l : List NodeId) (hl : l.length = num * s)
    (c : List NodeId) (hc : c ∈ (List.range num).map (fun k => ((l.drop (k * s)).take s))) :
    c.length = s := by
  obtain ⟨k, hk, rfl⟩ := List.mem_map.mp hc
  have hk1 : k < num := List.mem_range.mp hk
  have hmul : k * s + s ≤ num * s := by
    have h2 := Nat.mul_le_mul_right s (show k + 1 ≤ num by omega)
    simpa [Nat.add_mul, Nat.one_mul] using h2
  simp only [List.length_take, List.length_drop, hl]
  omega

/-- Specification of `pySlices` on an evenly divisible list: `num` slices
of width `s` whose concatenation is the whole list. -/
theorem pySlices_spec (d : List NodeId) (num s : Nat) (hs : 1 ≤ s)
    (hlen : d.length = num * s) :
    (pySlices d s d.length).length = num ∧
    (∀ c ∈ pySlices d s d.length, c.length = s) ∧
    (pySlices d s d.length).flatten = d := by
  have hb : (d.length + s - 1) / s = num := by
    rw [hlen]
    exact ceil_div_exact s num hs
  have heq : pySlices d s d.length =
      (List.range num).map (fun k => ((d.drop (k * s)).take s)) := by
    rw [pySlices, hb]
  refine ⟨?_, ?_, ?_⟩
  · rw [heq]
    simp
  · intro c hc
    rw [heq] at hc
    exact range_chunks_mem_length s num d hlen c hc
  · rw [heq]
    exact range_chunks_flatten s num d hlen

/-! ## Lemmas for the serial branch -/

/-- Length of Python list repetition. -/
theorem pyListMul_length (d : List NodeId) (k : Nat) :
    (pyListMul d k).length = k * d.length := by
  simp [pyListMul, List.length_flatten, List.map_replicate, List.sum_replicate, smul_eq_mul]

/-- Occurrence count under Python list repetition. -/
theorem pyListMul_count (d : List NodeId) (k : Nat) (x : NodeId) :
    (pyListMul d k).count x = k * d.count x := by
  simp [pyListMul, List.count_flatten, List.map_replicate, List.sum_replicate, smul_eq_mul]

/-! ## Claim C2: parallel partition on an evenly divisible node list -/

/-- C2: in parallel mode, when the deduplicated node count divides evenly
by the number of sub-jobs, the allocator returns that many contiguous
slices of equal width nodeCount / totalSubJobs whose concatenation is
exactly the deduplicated sorted input (duplicate-free), and gives every
sub-job sliceWidth * ppn processors. -/
theorem C2_parallel_partition (num_rockets ppn : Nat) (l : List NodeId)
    (hnum : 1 ≤ num_rockets) (hl : l ≠ [])
    (hdiv : (dedupSort l).length % num_rockets = 0) :
    ∃ chunks : List (List NodeId),
      split_node_lists num_rockets (some l) ppn false =
        Except.ok (chunks.map some,
          List.replicate num_rockets ((dedupSort l).length / num_rockets * ppn)) ∧
      chunks.length = num_rockets ∧
      (∀ c ∈ chunks, c.length = (dedupSort l).length / num_rockets) ∧
      chunks.flatten = dedupSort l ∧
      (dedupSort l).Nodup := by
  have hmul := (div_mul_check_iff (dedupSort l).length num_rockets).mpr hdiv
  have hdnil : dedupSort l ≠ [] := fun hh => hl ((dedupSort_eq_nil_iff l).mp hh)
  have hn1 : 1 ≤ (dedupSort l).length := List.length_pos.mpr hdnil
  have hs1 : 1 ≤ (dedupSort l).length / num_rockets := by
    rcases Nat.eq_zero_or_pos ((dedupSort l).length / num_rockets) with h0 | h1
    · rw [h0, Nat.zero_mul] at hmul
      omega
    · exact h1
  have hlen : (dedupSort l).length = num_rockets * ((dedupSort l).length / num_rockets) := by
    rw [Nat.mul_comm]
    exact hmul.symm
  obtain ⟨hcl, hcmem, hcflat⟩ :=
    pySlices_spec (dedupSort l) num_rockets ((dedupSort l).length / num_rockets) hs1 hlen
  exact ⟨pySlices (dedupSort l) ((dedupSort l).length / num_rockets) (dedupSort l).length,
    split_parallel_ok num_rockets ppn l hnum hl hmul, hcl, hcmem, hcflat, dedupSort_nodup l⟩

/-- C2 witness: the spec scenario, 4 sub-jobs of 2 nodes each over 8
nodes at 24 processors per node. -/
theorem C2_parallel_partition_witness :
    (1 ≤ 4 ∧ ([1, 2, 3, 4, 5, 6, 7, 8] : List NodeId) ≠ [] ∧
      (dedupSort [1, 2, 3, 4, 5, 6, 7, 8]).length % 4 = 0) ∧
    (∃ chunks : List (List NodeId),
      split_node_lists 4 (some [1, 2, 3, 4, 5, 6, 7, 8]) 24 false =
        Except.ok (chunks.map some,
          List.replicate 4 ((dedupSort [1, 2, 3, 4, 5, 6, 7, 8]).length / 4 * 24)) ∧
      chunks.length = 4 ∧
      (∀ c ∈ chunks, c.length = (dedupSort [1, 2, 3, 4, 5, 6, 7, 8]).length / 4) ∧
      chunks.flatten = dedupSort [1, 2, 3, 4, 5, 6, 7, 8] ∧
      (dedupSort [1, 2, 3, 4, 5, 6, 7, 8]).Nodup) :=
  ⟨⟨by decide, by decide, by decide⟩,
    C2_parallel_partition 4 24 [1, 2, 3, 4, 5, 6, 7, 8] (by decide) (by decide) (by decide)⟩

/-! ## Claim C5: parallel partition on a non-divisible node list -/

/-- C5: in parallel mode, when the deduplicated node count does not
divide evenly, the allocator raises the divisibility error and returns no
share list; the orchestrator raises it in its very first step, so its
trace contains no service start and no worker spawn. -/
theorem C5_nondivisible_aborts_before_launch (num_rockets ppn : Nat) (l : List NodeId)
    (hnum : 1 ≤ num_rockets) (hl : l ≠ [])
    (hdiv : (dedupSort l).length % num_rockets ≠ 0) :
    split_node_lists num_rockets (some l) ppn false =
      Except.error (AllocError.notDivisible (dedupSort l).length num_rockets) ∧
    ∀ fm : FaultModel,
      launch_job_packing_processes num_rockets (some l) ppn false fm = ([], false) ∧
      OrchEvent.startService ∉
        (launch_job_packing_processes num_rockets (some l) ppn false fm).1 ∧
      OrchEvent.spawnWorkers ∉
        (launch_job_packing_processes num_rockets (some l) ppn false fm).1 := by
  have hne : (dedupSort l).length / num_rockets * num_rockets ≠ (dedupSort l).length :=
    fun h => hdiv ((div_mul_check_iff _ _).mp h)
  have herr := split_parallel_err num_rockets ppn l hnum hl hne
  refine ⟨herr, fun fm => ?_⟩
  simp [launch_job_packing_processes, herr]

/-- C5 witness: the spec scenario, 3 sub-jobs over 8 nodes. -/
theorem C5_nondivisible_witness :
    (1 ≤ 3 ∧ ([1, 2, 3, 4, 5, 6, 7, 8] : List NodeId) ≠ [] ∧
      (dedupSort [1, 2, 3, 4, 5, 6, 7, 8]).length % 3 ≠ 0) ∧
    (split_node_lists 3 (some [1, 2, 3, 4, 5, 6, 7, 8]) 24 false =
      Except.error (AllocError.notDivisible (dedupSort [1, 2, 3, 4, 5, 6, 7, 8]).length 3) ∧
    ∀ fm : FaultModel,
      launch_job_packing_processes 3 (some [1, 2, 3, 4, 5, 6, 7, 8]) 24 false fm = ([], false) ∧
      OrchEvent.startService ∉
        (launch_job_packing_processes 3 (some [1, 2, 3, 4, 5, 6, 7, 8]) 24 false fm).1 ∧
      OrchEvent.spawnWorkers ∉
        (launch_job_packing_processes 3 (some [1, 2, 3, 4, 5, 6, 7, 8]) 24 false fm).1) :=
  ⟨⟨by decide, by decide, by decide⟩,
    C5_nondivisible_aborts_before_launch 3 24 [1, 2, 3, 4, 5, 6, 7, 8]
      (by decide) (by decide) (by decide)⟩

/-! ## Claim C6: serial partition with a node list -/

/-- C6: in serial mode with a node list, when the number of sub-jobs is
evenly divisible by the deduplicated node count, the allocator cyclically
repeats the deduplicated sorted sequence job_per_node times, giving each
sub-job exactly one node and processor count 1, with each node assigned
to exactly totalSubJobs / nodeCount sub-jobs; otherwise it raises the
divisibility error. -/
theorem C6_serial_partition (num_rockets ppn : Nat) (l : List NodeId)
    (hnum : 1 ≤ num_rockets) (hl : l ≠ []) :
    (num_rockets % (dedupSort l).length = 0 →
      split_node_lists num_rockets (some l) ppn true =
        Except.ok ((pyListMul (dedupSort l) (num_rockets / (dedupSort l).length)).map
            (fun node => some [node]),
          List.replicate num_rockets 1) ∧
      ((pyListMul (dedupSort l) (num_rockets / (dedupSort l).length)).map
          (fun node => some [node])).length = num_rockets ∧
      (∀ x ∈ dedupSort l,
        (pyListMul (dedupSort l) (num_rockets / (dedupSort l).length)).count x =
          num_rockets / (dedupSort l).length)) ∧
    (num_rockets % (dedupSort l).length ≠ 0 →
      split_node_lists num_rockets (some l) ppn true =
        Except.error (AllocError.notDivisible num_rockets (dedupSort l).length)) := by
  constructor
  · intro hdiv
    have hmul := (div_mul_check_iff num_rockets (dedupSort l).length).mpr hdiv
    refine ⟨split_serial_ok num_rockets ppn l hl hmul, ?_, ?_⟩
    · rw [List.length_map, pyListMul_length]
      exact hmul
    · intro x hx
      rw [pyListMul_count, List.count_eq_one_of_mem (dedupSort_nodup l) hx, Nat.mul_one]
  · intro hdiv
    exact split_serial_err num_rockets ppn l hl
      (fun h => hdiv ((div_mul_check_iff _ _).mp h))

/-- C6 witness: 4 serial sub-jobs over 2 distinct nodes, each node
serving 2 sub-jobs. -/
theorem C6_serial_partition_witness :
    (1 ≤ 4 ∧ ([10, 20] : List NodeId) ≠ []) ∧
    ((4 % (dedupSort [10, 20]).length = 0 →
      split_node_lists 4 (some [10, 20]) 7 true =
        Except.ok ((pyListMul (dedupSort [10, 20]) (4 / (dedupSort [10, 20]).length)).map
            (fun node => some [node]),
          List.replicate 4 1) ∧
      ((pyListMul (dedupSort [10, 20]) (4 / (dedupSort [10, 20]).length)).map
          (fun node => some [node])).length = 4 ∧
      (∀ x ∈ dedupSort [10, 20],
        (pyListMul (dedupSort [10, 20]) (4 / (dedupSort [10, 20]).length)).count x =
          4 / (dedupSort [10, 20]).length)) ∧
    (4 % (dedupSort [10, 20]).length ≠ 0 →
      split_node_lists 4 (some [10, 20]) 7 true =
        Except.error (AllocError.notDivisible 4 (dedupSort [10, 20]).length))) :=
  ⟨⟨by decide, by decide⟩, C6_serial_partition 4 7 [10, 20] (by decide) (by decide)⟩

/-! ## Monitor scan lemmas and claims C3, C7 -/

/-- Characterization of one scan in a benign environment: when no ping of
a truthy entry with a live owner raises anything other than `OSError`,
the scan runs to completion and pings exactly the truthy entries whose
owning process is alive. -/
theorem scan_benign_eq (env : MonitorEnv) :
    ∀ entries : List (Nat × Option Nat),
      (∀ e ∈ entries, lidTruthy e.2 = true → env.pidAlive e.1 = true →
        env.pingResult (e.2.getD 0) ≠ PingOutcome.otherError) →
      ping_launch_jp_scan env entries = (entries.filterMap (pingedOf env), true) := by
  intro entries
  induction entries with
  | nil => intro _; rfl
  | cons e rest ih =>
    intro h
    obtain ⟨pid, lid⟩ := e
    have hrest := ih (fun e he ht ha => h e (List.mem_cons_of_mem _ he) ht ha)
    by_cases ht : lidTruthy lid = true
    · by_cases ha : env.pidAlive pid = true
      · have hping := h (pid, lid) (List.mem_cons_self _ _) ht ha
        simp [ping_launch_jp_scan, ht, ha, hping, hrest, pingedOf, List.filterMap_cons]
      · simp [ping_launch_jp_scan, ht, ha, hrest, pingedOf, List.filterMap_cons]
    · simp [ping_launch_jp_scan, ht, hrest, pingedOf, List.filterMap_cons]

/-- C3 counterexample: process 1 is alive and its ping raises a
non-`OSError` exception; the scan aborts and the (alive, healthy) entry
for launch id 6 that follows is never processed, contradicting the claim
that every subsequent entry of the scan is still processed. -/
theorem C3_counterexample :
    ping_launch_jp_scan abortingPingEnv [(1, some 5), (2, some 6)] = ([5], false) ∧
    6 ∉ (ping_launch_jp_scan abortingPingEnv [(1, some 5), (2, some 6)]).1 := by
  decide

/-- C3 amended: only `OSError` is isolated per item. As long as no ping
of a live-owner entry raises an exception other than `OSError`, the scan
processes every entry and completes; a non-`OSError` exception aborts the
remainder of the scan (see the counterexample). -/
theorem C3_scan_isolation_amended (env : MonitorEnv) (entries : List (Nat × Option Nat))
    (h : ∀ e ∈ entries, lidTruthy e.2 = true → env.pidAlive e.1 = true →
      env.pingResult (e.2.getD 0) ≠ PingOutcome.otherError) :
    (ping_launch_jp_scan env entries).2 = true := by
  rw [scan_benign_eq env entries h]

/-- C3 witness: every ping raises `OSError` and the scan still completes. -/
theorem C3_scan_isolation_witness :
    (∀ e ∈ ([(1, some 5), (2, some 6)] : List (Nat × Option Nat)),
      lidTruthy e.2 = true → osErrorPingEnv.pidAlive e.1 = true →
      osErrorPingEnv.pingResult (e.2.getD 0) ≠ PingOutcome.otherError) ∧
    (ping_launch_jp_scan osErrorPingEnv [(1, some 5), (2, some 6)]).2 = true :=
  ⟨by decide, C3_scan_isolation_amended osErrorPingEnv [(1, some 5), (2, some 6)] (by decide)⟩

/-- C7: in a scan whose pings raise at most `OSError`, the scan runs to
completion and pings exactly the entries with a truthy work-item id and a
live owning process: an entry whose process id no longer exists, or whose
work-item id is absent, contributes nothing. -/
theorem C7_dead_entries_skipped (env : MonitorEnv) (entries : List (Nat × Option Nat))
    (h : ∀ e ∈ entries, lidTruthy e.2 = true → env.pidAlive e.1 = true →
      env.pingResult (e.2.getD 0) ≠ PingOutcome.otherError) :
    ping_launch_jp_scan env entries = (entries.filterMap (pingedOf env), true) ∧
    ∀ e : Nat × Option Nat, env.pidAlive e.1 = false ∨ lidTruthy e.2 = false →
      pingedOf env e = none := by
  refine ⟨scan_benign_eq env entries h, fun e he => ?_⟩
  rcases he with h1 | h1 <;> simp [pingedOf, h1]

/-- C7 witness: process 1 is dead and entry 3 has no work-item id; the
scan completes and pings only launch id 6, owned by the live process 2. -/
theorem C7_dead_entries_witness :
    (∀ e ∈ ([(1, some 5), (2, some 6), (3, none)] : List (Nat × Option Nat)),
      lidTruthy e.2 = true → deadPidEnv.pidAlive e.1 = true →
      deadPidEnv.pingResult (e.2.getD 0) ≠ PingOutcome.otherError) ∧
    (ping_launch_jp_scan deadPidEnv [(1, some 5), (2, some 6), (3, none)] =
      (([(1, some 5), (2, some 6), (3, none)] :
        List (Nat × Option Nat)).filterMap (pingedOf deadPidEnv), true) ∧
    ∀ e : Nat × Option Nat, deadPidEnv.pidAlive e.1 = false ∨ lidTruthy e.2 = false →
      pingedOf deadPidEnv e = none) :=
  ⟨by decide,
    C7_dead_entries_skipped deadPidEnv [(1, some 5), (2, some 6), (3, none)] (by decide)⟩

/-! ## Claims C1 and C4: orchestrator teardown -/

/-- C1 counterexample: a run in which the shared-state service started
and the worker launch then raised. The orchestrator body has no
try/finally, so the trace ends at the raise and `shutdown()` is invoked
zero times, not exactly once. -/
theorem C1_counterexample :
    OrchEvent.startService ∈
      (launch_job_packing_processes 2 none 24 false ⟨false, true, false⟩).1 ∧
    (launch_job_packing_processes 2 none 24 false ⟨false, true, false⟩).1.count
      OrchEvent.shutdownService = 0 := by
  decide

/-- C1 amended: on a run whose allocation succeeded, `shutdown()` is
invoked exactly once when none of service start, worker launch and
monitor start raises; if the worker launch raises after the service has
started, the exception propagates and `shutdown()` is never invoked. -/
theorem C1_teardown_amended (num_rockets : Nat) (tnl : Option (List NodeId))
    (ppn : Nat) (serial_mode : Bool) (fm : FaultModel)
    (r : List (Option (List NodeId)) × List Nat)
    (halloc : split_node_lists num_rockets tnl ppn serial_mode = Except.ok r) :
    (fm.serviceStartRaises = false → fm.launchRaises = false →
      fm.monitorStartRaises = false →
      (launch_job_packing_processes num_rockets tnl ppn serial_mode fm).1.count
        OrchEvent.shutdownService = 1) ∧
    (fm.serviceStartRaises = false → fm.launchRaises = true →
      OrchEvent.startService ∈
        (launch_job_packing_processes num_rockets tnl ppn serial_mode fm).1 ∧
      OrchEvent.shutdownService ∉
        (launch_job_packing_processes num_rockets tnl ppn serial_mode fm).1) := by
  obtain ⟨s1, s2, s3⟩ := fm
  constructor
  · intro h1 h2 h3
    subst h1
    subst h2
    subst h3
    simp [launch_job_packing_processes, halloc]
  · intro h1 h2
    subst h1
    subst h2
    simp [launch_job_packing_processes, halloc]

/-- C1 witness: allocation with no node list succeeds and the amended
teardown property holds at a run where the worker launch raises. -/
theorem C1_teardown_witness :
    split_node_lists 1 none 24 false = Except.ok ([none], [24]) ∧
    (((⟨false, true, false⟩ : FaultModel).serviceStartRaises = false →
        (⟨false, true, false⟩ : FaultModel).launchRaises = false →
        (⟨false, true, false⟩ : FaultModel).monitorStartRaises = false →
        (launch_job_packing_processes 1 none 24 false ⟨false, true, false⟩).1.count
          OrchEvent.shutdownService = 1) ∧
      ((⟨false, true, false⟩ : FaultModel).serviceStartRaises = false →
        (⟨false, true, false⟩ : FaultModel).launchRaises = true →
        OrchEvent.startService ∈
          (launch_job_packing_processes 1 none 24 false ⟨false, true, false⟩).1 ∧
        OrchEvent.shutdownService ∉
          (launch_job_packing_processes 1 none 24 false ⟨false, true, false⟩).1)) :=
  ⟨by rfl,
    C1_teardown_amended 1 none 24 false ⟨false, true, false⟩ ([none], [24]) (by rfl)⟩

/-- C4 counterexample: a fault-free run returns normally and invokes
`shutdown()`, yet its trace has no step that waits for the monitor loop
to observe the stop signal: the source never joins `ping_thread`, so the
claimed wait does not happen before `shutdown()`. -/
theorem C4_counterexample :
    (launch_job_packing_processes 2 none 24 false ⟨false, false, false⟩).2 = true ∧
    OrchEvent.shutdownService ∈
      (launch_job_packing_processes 2 none 24 false ⟨false, false, false⟩).1 ∧
    OrchEvent.waitMonitor ∉
      (launch_job_packing_processes 2 none 24 false ⟨false, false, false⟩).1 := by
  decide

/-- C4 amended: on a fault-free run the orchestrator joins the workers,
signals the monitor to stop and then immediately invokes `shutdown()`,
in that order, without ever waiting for the monitor loop to observe the
signal (no trace of any run contains a wait on the monitor). -/
theorem C4_no_wait_amended (num_rockets : Nat) (tnl : Option (List NodeId))
    (ppn : Nat) (serial_mode : Bool)
    (r : List (Option (List NodeId)) × List Nat)
    (halloc : split_node_lists num_rockets tnl ppn serial_mode = Except.ok r) :
    launch_job_packing_processes num_rockets tnl ppn serial_mode ⟨false, false, false⟩ =
      ([OrchEvent.allocate, OrchEvent.startService, OrchEvent.spawnWorkers,
        OrchEvent.startMonitor, OrchEvent.joinWorkers, OrchEvent.signalStop,
        OrchEvent.shutdownService], true) ∧
    ∀ fm : FaultModel,
      OrchEvent.waitMonitor ∉
        (launch_job_packing_processes num_rockets tnl ppn serial_mode fm).1 := by
  constructor
  · simp [launch_job_packing_processes, halloc]
  · intro fm
    obtain ⟨s1, s2, s3⟩ := fm
    cases s1 <;> cases s2 <;> cases s3 <;> simp [launch_job_packing_processes, halloc]

/-- C4 witness: the amended teardown ordering at a concrete fault-free
run. -/
theorem C4_no_wait_witness :
    split_node_lists 1 none 24 false = Except.ok ([none], [24]) ∧
    (launch_job_packing_processes 1 none 24 false ⟨false, false, false⟩ =
      ([OrchEvent.allocate, OrchEvent.startService, OrchEvent.spawnWorkers,
        OrchEvent.startMonitor, OrchEvent.joinWorkers, OrchEvent.signalStop,
        OrchEvent.shutdownService], true) ∧
    ∀ fm : FaultModel,
      OrchEvent.waitMonitor ∉
        (launch_job_packing_processes 1 none 24 false fm).1) :=
  ⟨by rfl, C4_no_wait_amended 1 none 24 false ([none], [24]) (by rfl)⟩
